import Mathlib

/-!
Verification development for the garmin-personal-coach pipeline.

Shallow embedding of the repository's core logic:
* `src/src/analytics.py` — `compute_ctl_atl`, `compute_hrv_zscore`, `evaluate_flags`
* `src/src/planner_interface.py` — `patch_and_push`
* `src/src/garmin_client.py` — the `retry` decorator and its wrapper semantics
* `src/dags/flows.py` — the `adapt_weekly` decision whether to propose and push a revision

Numeric columns are modelled over `ℚ` (exact arithmetic) except where the code
takes a square root (`pandas.rolling.std`), where `ℝ` with `Real.sqrt` is used.
Stateful code is modelled as explicit state passing over an environment of
operation outcomes, with Python exceptions as `Except` errors.
-/

namespace GarminCoach

/-! ### analytics.compute_ctl_atl (analytics.py lines 17-44)

The source sorts the activities DataFrame by `timestamp`, computes full
`ewm(span, adjust=False).mean()` columns for CTL (span 42) and ATL (span 7)
over the `tss` column, sets `tsb = ctl - atl`, and returns the last row's
values.  A row of the DataFrame is an `Activity`; `ewmCol` is the pandas
exponentially weighted column with `adjust=False`
(`y₀ = x₀`, `yₜ = (1-α)·yₜ₋₁ + α·xₜ`, `α = 2/(span+1)`). -/

structure Activity where
  timestamp : ℤ
  tss : ℚ
deriving DecidableEq, Repr

/-- Comparison used by `sort_values(by='timestamp')`. -/
def tsLe (r s : Activity) : Prop := r.timestamp ≤ s.timestamp

instance : DecidableRel tsLe := fun r s => inferInstanceAs (Decidable (r.timestamp ≤ s.timestamp))

instance : IsTotal Activity tsLe := ⟨fun r s => Int.le_total r.timestamp s.timestamp⟩

instance : IsTrans Activity tsLe := ⟨fun _ _ _ h h' => le_trans h h'⟩

/-- `activities_df.sort_values(by='timestamp')`: sort rows by timestamp. -/
def sort_values (df : List Activity) : List Activity :=
  List.insertionSort tsLe df

/-- Tail of the pandas `ewm(adjust=False)` column: `prev` is the accumulated
EMA for the rows already consumed. -/
def ewmColAux (a : ℚ) (prev : ℚ) : List ℚ → List ℚ
  | [] => [prev]
  | y :: ys => prev :: ewmColAux a ((1 - a) * prev + a * y) ys

/-- Full `series.ewm(span, adjust=False).mean()` column with `a = 2/(span+1)`. -/
def ewmCol (a : ℚ) : List ℚ → List ℚ
  | [] => []
  | x :: xs => ewmColAux a x xs

/-- Constant from analytics.py: `CTL_DAYS = 42`. -/
def CTL_DAYS : ℕ := 42

/-- Constant from analytics.py: `ATL_DAYS = 7`. -/
def ATL_DAYS : ℕ := 7

structure CtlAtl where
  ctl : ℚ
  atl : ℚ
  tsb : ℚ
deriving DecidableEq, Repr

/-- `compute_ctl_atl` (analytics.py lines 17-44).  An input row always carries
both the `timestamp` and the `tss` field in this model, so the guard reduces
to the emptiness test; the missing-column branch returns the same zeros. -/
def compute_ctl_atl (df : List Activity) : CtlAtl :=
  if df.isEmpty then ⟨0, 0, 0⟩
  else
    let s := sort_values df
    let tssCol := s.map Activity.tss
    let ctlCol := ewmCol (2 / (CTL_DAYS + 1)) tssCol
    let atlCol := ewmCol (2 / (ATL_DAYS + 1)) tssCol
    let ctl := ctlCol.getLastD 0
    let atl := atlCol.getLastD 0
    ⟨ctl, atl, ctl - atl⟩

/-- The specification's exponential moving average, written on the reversed
series (head = latest workout): `ema(latest :: older) = α·latest +
(1-α)·ema(older)` with the seed equal to the earliest value. -/
def emaRev (a : ℚ) : List ℚ → ℚ
  | [] => 0
  | x :: xs => if xs = [] then x else a * x + (1 - a) * emaRev a xs

/-- Exponential moving average of the series at its latest point, as the spec
describes it ("exponential moving averages of a per-workout stress score"). -/
def emaSpec (a : ℚ) (xs : List ℚ) : ℚ :=
  emaRev a xs.reverse

/-- Concrete two-workout table, deliberately out of timestamp order. -/
def dfW : List Activity := [⟨5, 86⟩, ⟨3, 43⟩]

/-! ### analytics.compute_hrv_zscore (analytics.py lines 46-81)

The source builds a DataFrame from a list of dicts; the `hrv` column exists
iff at least one dict carries the `hrv` key, so an input reading is modelled
as `Option ℝ`.  The function returns `None` on an empty list, a missing
column, or fewer than `window_size = 30` rows; otherwise it computes rolling
mean and sample standard deviation columns (window 30, `ddof = 1` as in
pandas `rolling.std`), a z-score column, and returns the last entry.  Rolling
entries with an incomplete window are NaN in pandas and `none` here; readings
without the key (NaN inside the column) are outside the numeric path modelled
here, which the claims never exercise. -/

/-- Rolling window length from analytics.py (`window_size = 30`). -/
def window_size : ℕ := 30

/-- Mean of a pandas rolling window. -/
noncomputable def sampleMean (l : List ℝ) : ℝ := l.sum / l.length

/-- Sample standard deviation of a window, pandas `rolling.std` (`ddof = 1`). -/
noncomputable def sampleStd (l : List ℝ) : ℝ :=
  Real.sqrt ((l.map (fun x => (x - sampleMean l) ^ 2)).sum / ((l.length : ℝ) - 1))

/-- The z-score column: entry `i` combines row `i` with the rolling mean and
rolling standard deviation of the 30-row window ending at `i` (`none` where
pandas puts NaN for an incomplete window). -/
noncomputable def rollingZCol (xs : List ℝ) : List (Option ℝ) :=
  (List.range xs.length).map (fun i =>
    if window_size ≤ i + 1 then
      some ((xs.getD i 0 - sampleMean ((xs.take (i + 1)).drop (i + 1 - window_size))) /
        sampleStd ((xs.take (i + 1)).drop (i + 1 - window_size)))
    else none)

/-- `compute_hrv_zscore` (analytics.py lines 46-81). -/
noncomputable def compute_hrv_zscore (data : List (Option ℝ)) : Option ℝ :=
  if data.isEmpty then none
  else if data.all Option.isNone then none
  else if data.length < window_size then none
  else (rollingZCol data.reduceOption).getLastD none

/-- The spec's z-score: deviation of the latest reading from its trailing
30-reading rolling mean, in units of the trailing 30-reading rolling sample
standard deviation. -/
noncomputable def hrvZscoreSpec (vals : List ℝ) : ℝ :=
  (vals.getLastD 0 - sampleMean (vals.drop (vals.length - window_size))) /
    sampleStd (vals.drop (vals.length - window_size))

/-- Concrete 30-reading HRV series: mean 0, sample variance
`(49+9+9+49)/29 = 4`, so the rolling standard deviation is 2 and the latest
z-score is `(7-0)/2 = 7/2`. -/
noncomputable def hrvSample : List ℝ :=
  [-7, -3, 3, 0, 0, 0, 0, 0, 0, 0, 0, 0, 0, 0, 0,
   0, 0, 0, 0, 0, 0, 0, 0, 0, 0, 0, 0, 0, 0, 7]

/-! ### analytics.evaluate_flags (analytics.py lines 84-126)

`metrics.get` with defaults is modelled with `Option` fields; the result dict
is an association list in insertion order.  The `high_atl_ctl_ratio` flag
mirrors the short-circuit `ctl > 0 and atl / ctl > ...`: the quotient appears
only in the `0 < ctl` branch. -/

/-- The fields of the source `Settings` object that `evaluate_flags` reads
(settings.py: `ctl_atl_ratio_max` default 1.3, `hrv_drop_zscore` default -1.0);
the remaining settings fields are not consulted by the claims. -/
structure Settings where
  ctl_atl_ratio_max : ℚ
  hrv_drop_zscore : ℚ
deriving DecidableEq, Repr

/-- The metrics dict handed to `evaluate_flags`; a `none` field models an
absent key, read through `metrics.get`. -/
structure Metrics where
  ctl : Option ℚ
  atl : Option ℚ
  hrv_zscore : Option ℚ
  tsb : Option ℚ
deriving DecidableEq, Repr

/-- `evaluate_flags` (analytics.py lines 84-126). -/
def evaluate_flags (m : Metrics) (s : Settings) : List (String × Bool) :=
  let ctl := m.ctl.getD 0
  let atl := m.atl.getD 0
  let highRatioFlag : Bool :=
    if 0 < ctl then decide (s.ctl_atl_ratio_max < atl / ctl) else false
  let lowHrvFlag : Bool :=
    match m.hrv_zscore with
    | some z => decide (z < s.hrv_drop_zscore)
    | none => false
  let tsb := m.tsb.getD 0
  let lowTsbFlag : Bool := decide (tsb < -10)
  [("high_atl_ctl_ratio", highRatioFlag), ("low_hrv", lowHrvFlag), ("low_tsb", lowTsbFlag)]

/-! ### dags/flows.py adapt_weekly (lines 70-77)

`if flags:` tests the Python truthiness of the dict returned by
`evaluate_flags`; a dict is truthy iff it is non-empty.  When truthy the flow
calls `llm.propose_revision` and `planner_interface.patch_and_push`. -/

/-- Python truthiness of the flags dict. -/
def pyDictTruthy (flags : List (String × Bool)) : Bool := !flags.isEmpty

/-- Whether `adapt_weekly` proposes an LLM revision and invokes
`patch_and_push` (the `if flags:` branch of flows.py lines 72-75). -/
def adapt_weekly_proposes (m : Metrics) (s : Settings) : Bool :=
  pyDictTruthy (evaluate_flags m s)

/-- Metrics on which every flag evaluates to `False`:
`ctl = 0` (ratio guard fails), no HRV z-score, `tsb = 0`. -/
def metricsAllQuiet : Metrics := ⟨some 0, some 0, none, some 0⟩

/-- The default thresholds from settings.py. -/
def settingsDefault : Settings := ⟨13 / 10, -1⟩

/-! ### garmin_client.retry (garmin_client.py lines 14-29)

The decorator's loop runs `tries - 1` guarded attempts; after each failed
guarded attempt it sleeps `_delay` seconds and doubles `_delay`
(`_delay *= 2`), then makes one final unguarded attempt.  `retryDelays` is
the schedule of sleeps when every guarded attempt fails. -/

/-- Sleep durations between successive failed attempts of the `retry` wrapper
(`tries`, `delay` as in the decorator; defaults `tries = 3`, `delay = 5`). -/
def retryDelays : ℕ → ℕ → List ℕ
  | 0, _ => []
  | 1, _ => []
  | t + 2, d => d :: retryDelays (t + 1) (d * 2)

/-! ### garmin_client retry wrapper semantics (claim C9)

The wrapper evaluates `result and result.get("returncode", -1) == 0` on each
guarded attempt.  Python values returned by the wrapped fetchers are `None`,
a parsed JSON list, or the dict produced by `_run_garmindb_cli`; `.get` on a
list (or `None`) raises `AttributeError`, but short-circuiting skips `.get`
when the value is falsy. -/

/-- Python values flowing through the retry wrapper. -/
inductive PyVal where
  | pynone
  | pylist (n : ℕ)
  | pydict (rc : Option ℤ)
deriving DecidableEq, Repr

/-- Python truthiness: `None` and the empty list are falsy; the dicts built by
`_run_garmindb_cli` always carry three keys, hence are truthy. -/
def PyVal.truthy : PyVal → Bool
  | .pynone => false
  | .pylist n => decide (n ≠ 0)
  | .pydict _ => true

inductive PyErr where
  | attributeError
deriving DecidableEq, Repr

/-- `result and result.get("returncode", -1) == 0`: short-circuit on falsy
values, `.get` only exists on dicts. -/
def successCheck (v : PyVal) : Except PyErr Bool :=
  if v.truthy = false then .ok false
  else
    match v with
    | .pydict rc => .ok (decide (rc.getD (-1) = 0))
    | _ => .error .attributeError

/-- The wrapper's `while _tries > 1` loop; `results k` is the value returned
by the wrapped function on its `k`-th call (0-based).  The final call outside
the loop returns unconditionally. -/
def wrapperLoop (results : ℕ → PyVal) : ℕ → ℕ → Except PyErr PyVal
  | 0, k => .ok (results k)
  | 1, k => .ok (results k)
  | t + 2, k =>
    match successCheck (results k) with
    | .error e => .error e
    | .ok true => .ok (results k)
    | .ok false => wrapperLoop results (t + 1) (k + 1)

/-- The whole wrapped call (`wrapper` in garmin_client.py). -/
def retryWrapper (tries : ℕ) (results : ℕ → PyVal) : Except PyErr PyVal :=
  wrapperLoop results tries 0

/-! ### planner_interface.patch_and_push (planner_interface.py lines 19-115)

Each fallible operation's outcome is an oracle in `Env`; the YAML plans and
the JSON patch are opaque values.  `FS` is the relevant slice of the file
system (`plans/current_plan.yaml`, `plans/patched_plan.yaml`).  The function
returns `Except PyExn Outcome`: a Python exception escaping `patch_and_push`
would surface as `.error`, and every source handler branch is one `.ok`
branch here, tagged with the status recorded by the final
`planner_patch_and_push_end` log event.  `applyAttempts` counts invocations
of `jsonpatch.apply_patch`, `pushRes` is the subprocess outcome when it is
reached, and `copyAttempted` records whether the `shutil.copyfile` cache
update was entered. -/

abbrev Plan := ℕ

abbrev Patch := ℕ

/-- Outcome of reading `plans/current_plan.yaml`. -/
inductive LoadResult where
  | found (p : Plan)
  | notFound
  | ioError
deriving DecidableEq, Repr

/-- Outcome of `json.loads(diff)`. -/
inductive DecodeResult where
  | ok (p : Patch)
  | jsonError
  | otherError
deriving DecidableEq, Repr

/-- Outcome of `jsonpatch.apply_patch`. -/
inductive ApplyResult where
  | ok (p : Plan)
  | patchError
  | otherError
deriving DecidableEq, Repr

/-- Outcome of the `garmin_planner push` subprocess. -/
inductive PushResult where
  | ran (rc : ℤ)
  | cmdNotFound
  | otherError
deriving DecidableEq, Repr

/-- Oracles for the fallible operations of one `patch_and_push` run.
`mkdirs` is the outcome of `os.makedirs(plan_dir, exist_ok=True)` at
planner_interface.py line 32: `false` means the call raises (for example
`FileExistsError` when `plans` exists as a regular file, or
`PermissionError`); this call sits outside every `try/except` in the source,
so its exception propagates to the caller. -/
structure Env where
  mkdirs : Bool
  load : LoadResult
  decode : DecodeResult
  applyPatch : Plan → Patch → ApplyResult
  save : Bool
  push : PushResult
  copy : Bool

/-- The two plan files managed under `plans/`. -/
structure FS where
  current : Option Plan
  patched : Option Plan
deriving DecidableEq, Repr

/-- The status recorded by the final `planner_patch_and_push_end` log event. -/
inductive Status where
  | succeeded
  | failedPatchApplication
  | failedDiffDecode
  | failedPatchException
  | failedSavePatchedPlan
  | failedSubprocess
  | failedCommandNotFound
  | failedSubprocessException
deriving DecidableEq, Repr

structure Outcome where
  fs : FS
  status : Status
  applyAttempts : ℕ
  pushRes : Option PushResult
  copyAttempted : Bool
deriving DecidableEq, Repr

/-- A Python exception escaping to the caller. -/
inductive PyExn where
  | uncaught
deriving DecidableEq, Repr

/-- The plan in effect after the load block: both handlers fall through with
an empty plan (`{}`, modelled as `0`). -/
def loadedPlan (env : Env) : Plan :=
  match env.load with
  | .found p => p
  | .notFound => 0
  | .ioError => 0

/-- `patch_and_push` (planner_interface.py lines 19-115).  The unguarded
`os.makedirs` runs first: when it raises, the exception escapes the function
(`.error`); every later operation is inside a handler. -/
def patch_and_push (env : Env) (fs : FS) : Except PyExn Outcome :=
  if env.mkdirs = false then .error PyExn.uncaught
  else
  let current := loadedPlan env
  match env.decode with
  | .jsonError => .ok ⟨fs, .failedDiffDecode, 0, none, false⟩
  | .otherError => .ok ⟨fs, .failedPatchException, 0, none, false⟩
  | .ok patch =>
    match env.applyPatch current patch with
    | .patchError => .ok ⟨fs, .failedPatchApplication, 1, none, false⟩
    | .otherError => .ok ⟨fs, .failedPatchException, 1, none, false⟩
    | .ok patched =>
      if env.save = false then .ok ⟨fs, .failedSavePatchedPlan, 1, none, false⟩
      else
        let fs1 : FS := ⟨fs.current, some patched⟩
        match env.push with
        | .cmdNotFound => .ok ⟨fs1, .failedCommandNotFound, 1, some .cmdNotFound, false⟩
        | .otherError => .ok ⟨fs1, .failedSubprocessException, 1, some .otherError, false⟩
        | .ran rc =>
          if rc ≠ 0 then .ok ⟨fs1, .failedSubprocess, 1, some (.ran rc), false⟩
          else if env.copy then
            .ok ⟨⟨some patched, some patched⟩, .succeeded, 1, some (.ran rc), true⟩
          else .ok ⟨fs1, .succeeded, 1, some (.ran rc), true⟩

/-- A starting file system with a persisted current plan. -/
def fs0 : FS := ⟨some 11, none⟩

/-- Every operation succeeds; the push exits with code 0. -/
def envHappy : Env := ⟨true, .found 11, .ok 3, fun _ _ => .ok 7, true, .ran 0, true⟩

/-- `jsonpatch.apply_patch` raises `JsonPatchException`. -/
def envApplyFail : Env := ⟨true, .found 11, .ok 3, fun _ _ => .patchError, true, .ran 0, true⟩

/-- The push subprocess exits with a non-zero code. -/
def envPushFail : Env := ⟨true, .found 11, .ok 3, fun _ _ => .ok 7, true, .ran 2, true⟩

/-- `os.makedirs("plans", exist_ok=True)` raises; everything else would
succeed. -/
def envMkdirsFail : Env := ⟨false, .found 11, .ok 3, fun _ _ => .ok 7, true, .ran 0, true⟩

/-- The push exits 0 but the `shutil.copyfile` cache update fails. -/
def envCopyFail : Env := ⟨true, .found 11, .ok 3, fun _ _ => .ok 7, true, .ran 0, false⟩

end GarminCoach

namespace GarminCoach

/-! ## Helper lemmas -/

theorem ewmColAux_ne_nil (a p : ℚ) (ys : List ℚ) : ewmColAux a p ys ≠ [] := by
  cases ys <;> simp [ewmColAux]

theorem emaRev_append_pair (a y p : ℚ) :
    ∀ l : List ℚ, emaRev a (l ++ [y, p]) = emaRev a (l ++ [(1 - a) * p + a * y]) := by
  intro l
  induction l with
  | nil => simp [emaRev]; ring
  | cons z l ih =>
    have h1 : l ++ [y, p] ≠ [] := by simp
    have h2 : l ++ [(1 - a) * p + a * y] ≠ [] := by simp
    simp only [List.cons_append, emaRev, List.append_eq]
    rw [if_neg h1, if_neg h2, ih]

theorem ewmColAux_getLastD (a : ℚ) :
    ∀ (ys : List ℚ) (p : ℚ), (ewmColAux a p ys).getLastD 0 = emaRev a (ys.reverse ++ [p]) := by
  intro ys
  induction ys with
  | nil => intro p; simp [ewmColAux, emaRev]
  | cons y ys ih =>
    intro p
    have hne := ewmColAux_ne_nil a ((1 - a) * p + a * y) ys
    calc (ewmColAux a p (y :: ys)).getLastD 0
        = (ewmColAux a ((1 - a) * p + a * y) ys).getLastD p := by
          show (p :: ewmColAux a ((1 - a) * p + a * y) ys).getLastD 0 = _
          rw [List.getLastD_cons]
      _ = (ewmColAux a ((1 - a) * p + a * y) ys).getLastD 0 := by
          rcases hl : ewmColAux a ((1 - a) * p + a * y) ys with _ | ⟨z, zs⟩
          · exact absurd hl hne
          · rw [List.getLastD_cons, List.getLastD_cons]
      _ = emaRev a (ys.reverse ++ [(1 - a) * p + a * y]) := ih _
      _ = emaRev a (ys.reverse ++ [y, p]) := (emaRev_append_pair a y p ys.reverse).symm
      _ = emaRev a ((y :: ys).reverse ++ [p]) := by
          simp

/-- Last entry of the `ewm(adjust=False)` column is the spec's EMA of the series. -/
theorem ewmCol_getLastD_eq_emaSpec (a : ℚ) (xs : List ℚ) (h : xs ≠ []) :
    (ewmCol a xs).getLastD 0 = emaSpec a xs := by
  cases xs with
  | nil => exact absurd rfl h
  | cons x xs =>
    simp only [ewmCol, emaSpec, List.reverse_cons]
    exact ewmColAux_getLastD a xs x

theorem reduceOption_map_some' {α : Type} (l : List α) : (l.map some).reduceOption = l := by
  induction l with
  | nil => rfl
  | cons x xs ih => simp [List.map_cons, List.reduceOption_cons_of_some, ih]

theorem getLastD_irrel {α : Type} (l : List α) (h : l ≠ []) (a b : α) :
    l.getLastD a = l.getLastD b := by
  cases l with
  | nil => exact absurd rfl h
  | cons x xs => rw [List.getLastD_cons, List.getLastD_cons]

theorem range_map_getLastD {β : Type} (f : ℕ → Option β) (n : ℕ) (h : 0 < n) :
    ((List.range n).map f).getLastD none = f (n - 1) := by
  cases n with
  | zero => exact absurd h (by simp)
  | succ m =>
    rw [List.range_succ, List.map_append]
    simp [List.getLastD_concat]

theorem getD_length_sub_one (l : List ℝ) (h : l ≠ []) :
    l.getD (l.length - 1) 0 = l.getLastD 0 := by
  induction l with
  | nil => exact absurd rfl h
  | cons x xs ih =>
    cases xs with
    | nil => rfl
    | cons y ys =>
      have h2 : (y :: ys) ≠ [] := by simp
      have hstep : (x :: y :: ys).getD ((x :: y :: ys).length - 1) 0
          = (y :: ys).getD ((y :: ys).length - 1) 0 := by
        simp [List.getD]
      rw [hstep, ih h2]
      exact (getLastD_irrel (y :: ys) h2 0 x).trans (List.getLastD_cons 0 x (y :: ys)).symm

/-! ## Claim theorems -/

/-- C1: for every non-empty activities table with `timestamp` and `tss`
columns, `compute_ctl_atl` sorts the rows by timestamp and returns `ctl` equal
to the exponential moving average of `tss` with span 42 / alpha 2/43
(`ewm(span=42, adjust=False)`), `atl` the analogous EMA with span 7 / alpha
2/8, both taken at the latest workout, and `tsb = ctl - atl`. -/
theorem compute_ctl_atl_matches_spec (df : List Activity) (h : df ≠ []) :
    List.Sorted tsLe (sort_values df) ∧
    (sort_values df).Perm df ∧
    compute_ctl_atl df =
      ⟨emaSpec (2/43) ((sort_values df).map Activity.tss),
       emaSpec (2/8) ((sort_values df).map Activity.tss),
       emaSpec (2/43) ((sort_values df).map Activity.tss) -
         emaSpec (2/8) ((sort_values df).map Activity.tss)⟩ := by
  have hlen : 0 < df.length := List.length_pos.mpr h
  have hslen : 0 < (sort_values df).length := by
    unfold sort_values
    rw [(List.perm_insertionSort tsLe df).length_eq]
    exact hlen
  have hmap : (sort_values df).map Activity.tss ≠ [] := by
    apply List.ne_nil_of_length_pos
    simpa using hslen
  refine ⟨List.sorted_insertionSort tsLe df, List.perm_insertionSort tsLe df, ?_⟩
  have hne : df.isEmpty = false := by
    simpa [List.isEmpty_iff] using h
  simp only [compute_ctl_atl, hne, Bool.false_eq_true, if_false]
  rw [ewmCol_getLastD_eq_emaSpec _ _ hmap, ewmCol_getLastD_eq_emaSpec _ _ hmap]
  norm_num [CTL_DAYS, ATL_DAYS]

/-- Witness for C1 at the concrete unsorted two-row table `dfW`:
the sorted `tss` series is `[43, 86]`, so `ctl = 41/43·43 + 2/43·86 = 45`,
`atl = 3/4·43 + 1/4·86 = 215/4` and `tsb = -35/4`. -/
theorem compute_ctl_atl_matches_spec_witness :
    dfW ≠ [] ∧
    (List.Sorted tsLe (sort_values dfW) ∧
     (sort_values dfW).Perm dfW ∧
     compute_ctl_atl dfW =
       ⟨emaSpec (2/43) ((sort_values dfW).map Activity.tss),
        emaSpec (2/8) ((sort_values dfW).map Activity.tss),
        emaSpec (2/43) ((sort_values dfW).map Activity.tss) -
          emaSpec (2/8) ((sort_values dfW).map Activity.tss)⟩) ∧
    compute_ctl_atl dfW = ⟨45, 215/4, -35/4⟩ :=
  ⟨by decide, compute_ctl_atl_matches_spec dfW (by decide), by
    rw [(compute_ctl_atl_matches_spec dfW (by decide)).2.2]
    norm_num [sort_values, List.insertionSort, List.orderedInsert,
      dfW, tsLe, emaSpec, emaRev]⟩

/-- C5: for every HRV series of at least 30 readings each carrying a numeric
`hrv` value, `compute_hrv_zscore` returns the deviation of the latest reading
from its trailing 30-reading rolling mean divided by the trailing 30-reading
rolling standard deviation; on an empty input, an input without the `hrv`
key anywhere, or fewer than 30 readings, it returns `None`. -/
theorem compute_hrv_zscore_matches_spec (vals : List ℝ) (data : List (Option ℝ))
    (h : window_size ≤ vals.length)
    (h2 : data = [] ∨ data.all Option.isNone = true ∨ data.length < window_size) :
    compute_hrv_zscore (vals.map some) = some (hrvZscoreSpec vals) ∧
    compute_hrv_zscore data = none := by
  constructor
  · have hlen : 0 < vals.length := lt_of_lt_of_le (by norm_num [window_size]) h
    have hvne : vals ≠ [] := List.ne_nil_of_length_pos hlen
    obtain ⟨v, vs, rfl⟩ := List.exists_cons_of_ne_nil hvne
    have hempty : ((v :: vs).map some).isEmpty = false := by simp
    have hall : ((v :: vs).map some).all Option.isNone = false := by
      simp [List.all_cons]
    have hlt : ¬ ((v :: vs).map some).length < window_size := by
      simpa using not_lt_of_le h
    rw [compute_hrv_zscore, hempty, hall, if_neg (by simp), if_neg (by simp), if_neg hlt,
      reduceOption_map_some']
    rw [rollingZCol, range_map_getLastD _ _ hlen]
    have hidx : (v :: vs).length - 1 + 1 = (v :: vs).length := Nat.succ_pred_eq_of_pos hlen
    rw [if_pos (by omega)]
    rw [hidx, List.take_length, getD_length_sub_one _ hvne, hrvZscoreSpec]
  · rcases h2 with rfl | hall | hlt
    · rfl
    · rw [compute_hrv_zscore, hall]
      by_cases he : data.isEmpty <;> simp [he]
    · rw [compute_hrv_zscore]
      by_cases he : data.isEmpty
      · simp [he]
      · by_cases ha : data.all Option.isNone <;> simp [he, ha, hlt]

/-- Witness for C5 at the concrete 30-reading series `hrvSample` (and the
empty list for the `None` side): the trailing window is the whole series,
whose mean is 0 and sample standard deviation 2, so the z-score is `7/2`. -/
theorem compute_hrv_zscore_matches_spec_witness :
    window_size ≤ hrvSample.length ∧
    compute_hrv_zscore (hrvSample.map some) = some (hrvZscoreSpec hrvSample) ∧
    compute_hrv_zscore [] = none ∧
    hrvZscoreSpec hrvSample = 7 / 2 := by
  have hlen : hrvSample.length = 30 := by norm_num [hrvSample]
  have h : window_size ≤ hrvSample.length := by rw [hlen]; norm_num [window_size]
  have main := compute_hrv_zscore_matches_spec hrvSample [] h (Or.inl rfl)
  refine ⟨h, main.1, main.2, ?_⟩
  have hdrop : hrvSample.drop (hrvSample.length - window_size) = hrvSample := by
    rw [hlen]
    norm_num [window_size]
  have hmean : sampleMean hrvSample = 0 := by
    rw [sampleMean, hlen]
    norm_num [hrvSample]
  have hstd : sampleStd hrvSample = 2 := by
    rw [sampleStd, hmean, hlen]
    have hsum : (hrvSample.map (fun x => (x - 0) ^ 2)).sum = 116 := by
      norm_num [hrvSample]
    rw [hsum]
    rw [show (116 : ℝ) / ((30 : ℕ) - 1 : ℝ) = 2 ^ 2 by norm_num]
    exact Real.sqrt_sq (by norm_num)
  have hlast : hrvSample.getLastD 0 = 7 := by
    norm_num [hrvSample]
  rw [hrvZscoreSpec, hdrop, hmean, hstd, hlast]
  norm_num

/-- C6 counterexample: at a concrete metrics dictionary and settings object,
the flag-evaluation step produces three flags, not five. -/
theorem evaluate_flags_not_five_flags :
    (evaluate_flags ⟨some 1, some 1, some 0, some 0⟩ ⟨13/10, -1⟩).length = 3 ∧
    (evaluate_flags ⟨some 1, some 1, some 0, some 0⟩ ⟨13/10, -1⟩).length ≠ 5 := by
  refine ⟨rfl, ?_⟩
  intro hc
  simp [evaluate_flags] at hc

/-- C6 amended: for every metrics dictionary and settings object, the
flag-evaluation step performs three threshold comparisons against scalar
metrics — ATL/CTL ratio against `ctl_atl_ratio_max` (guarded by `ctl > 0`),
HRV z-score against `hrv_drop_zscore`, and TSB against the constant `-10` —
producing three corresponding flags in its result. -/
theorem evaluate_flags_three_comparisons (m : Metrics) (s : Settings) :
    ∃ b1 b2 b3 : Bool,
      evaluate_flags m s = [("high_atl_ctl_ratio", b1), ("low_hrv", b2), ("low_tsb", b3)] ∧
      (b1 = true ↔ 0 < m.ctl.getD 0 ∧ s.ctl_atl_ratio_max < m.atl.getD 0 / m.ctl.getD 0) ∧
      (b2 = true ↔ ∃ z, m.hrv_zscore = some z ∧ z < s.hrv_drop_zscore) ∧
      (b3 = true ↔ m.tsb.getD 0 < -10) := by
  refine ⟨_, _, _, rfl, ?_, ?_, ?_⟩
  · by_cases h : 0 < m.ctl.getD 0 <;> simp [h]
  · cases hz : m.hrv_zscore <;> simp [hz]
  · simp

/-- C10: for every metrics dictionary and settings object, `evaluate_flags`
returns a dictionary with exactly the keys `high_atl_ctl_ratio`, `low_hrv`
and `low_tsb` (hence never empty), and the `atl/ctl` ratio influences the
result only under the guard `ctl > 0`: with `ctl ≤ 0` the ratio flag is
`False` no matter what `atl` is, so the division is never evaluated at a
zero `ctl`. -/
theorem evaluate_flags_keys_and_guard (m : Metrics) (s : Settings) :
    (evaluate_flags m s).map Prod.fst = ["high_atl_ctl_ratio", "low_hrv", "low_tsb"] ∧
    evaluate_flags m s ≠ [] ∧
    (¬ 0 < m.ctl.getD 0 → ((evaluate_flags m s).headD ("", false)).2 = false) := by
  refine ⟨rfl, by simp [evaluate_flags], ?_⟩
  intro h
  simp [evaluate_flags, h]

/-- Witness for C10 at a metrics dictionary with `ctl = 0`. -/
theorem evaluate_flags_keys_and_guard_witness :
    ¬ (0:ℚ) < (⟨some 0, some 5, none, some 0⟩ : Metrics).ctl.getD 0 ∧
    (evaluate_flags ⟨some 0, some 5, none, some 0⟩ ⟨13/10, -1⟩).map Prod.fst =
      ["high_atl_ctl_ratio", "low_hrv", "low_tsb"] ∧
    ((evaluate_flags ⟨some 0, some 5, none, some 0⟩ ⟨13/10, -1⟩).headD ("", false)).2 = false := by
  have h : ¬ (0:ℚ) < (⟨some 0, some 5, none, some 0⟩ : Metrics).ctl.getD 0 := by
    simp
  have main := evaluate_flags_keys_and_guard ⟨some 0, some 5, none, some 0⟩ ⟨13/10, -1⟩
  exact ⟨h, main.1, main.2.2 h⟩

/-- C3 (exhibit of the code bug): on metrics where every flag evaluates to
`False`, `adapt_weekly` still proposes an LLM revision and invokes
`patch_and_push`, because `if flags:` tests the truthiness of a dictionary
that always carries the three keys. -/
theorem adapt_weekly_pushes_despite_quiet_flags :
    (∀ kv ∈ evaluate_flags metricsAllQuiet settingsDefault, kv.2 = false) ∧
    adapt_weekly_proposes metricsAllQuiet settingsDefault = true := by
  have hflags : evaluate_flags metricsAllQuiet settingsDefault =
      [("high_atl_ctl_ratio", false), ("low_hrv", false), ("low_tsb", false)] := by
    simp only [evaluate_flags, metricsAllQuiet, settingsDefault]
    norm_num
  constructor
  · intro kv hkv
    rw [hflags] at hkv
    simp only [List.mem_cons, List.not_mem_nil, or_false] at hkv
    rcases hkv with rfl | rfl | rfl <;> rfl
  · rw [adapt_weekly_proposes, pyDictTruthy, hflags]
    rfl

/-- C7 counterexample: with `tries = 4`, `delay = 5` the sleeps are
`[5, 10, 20]`, whose successive increments differ — the schedule is not a
linear backoff. -/
theorem retryDelays_not_linear :
    retryDelays 4 5 = [5, 10, 20] ∧ (20 - 10 : ℕ) ≠ 10 - 5 := by
  exact ⟨rfl, by decide⟩

/-- C7 amended: the waits between successive failed attempts form an
exponential backoff: the `i`-th sleep is `delay * 2 ^ i` (the delay doubles
from one failed attempt to the next, as the decorator's own docstring says). -/
theorem retryDelays_exponential (tries delay : ℕ) :
    retryDelays tries delay = (List.range (tries - 1)).map (fun i => delay * 2 ^ i) := by
  induction tries using Nat.strong_induction_on generalizing delay with
  | _ t ih =>
    match t with
    | 0 => rfl
    | 1 => rfl
    | t + 2 =>
      rw [retryDelays, ih (t + 1) (by omega) (delay * 2)]
      rw [show t + 1 - 1 = t from rfl, show t + 2 - 1 = t + 1 from rfl]
      rw [List.range_succ_eq_map, List.map_cons, List.map_map]
      congr 1
      · simp
      · apply List.map_congr_left
        intro i _
        simp only [Function.comp_apply, pow_succ]
        ring

/-- Evaluation of the amended C7 statement at the decorator's parameter
values `tries = 4`, `delay = 5`. -/
theorem retryDelays_exponential_witness :
    retryDelays 4 5 = (List.range 3).map (fun i => 5 * 2 ^ i) ∧
    (List.range 3).map (fun i => 5 * 2 ^ i) = [5, 10, 20] :=
  ⟨retryDelays_exponential 4 5, by decide⟩

/-- The guarded part of the retry loop fails with `AttributeError` as soon as
one attempt in the loop returns a truthy non-dict value, provided every
earlier attempt continued the loop. -/
theorem wrapperLoop_error_of (results : ℕ → PyVal) :
    ∀ (k t s : ℕ), k + 1 < t →
      (∀ j, j < k → successCheck (results (s + j)) = .ok false) →
      successCheck (results (s + k)) = .error .attributeError →
      wrapperLoop results t s = .error .attributeError := by
  intro k
  induction k with
  | zero =>
    intro t s ht hprev herr
    match t, ht with
    | t' + 2, _ =>
      rw [Nat.add_zero] at herr
      rw [wrapperLoop, herr]
  | succ k ih =>
    intro t s ht hprev herr
    match t, ht with
    | t' + 2, ht =>
      have h0 : successCheck (results s) = .ok false := by
        have := hprev 0 (Nat.succ_pos k)
        simpa using this
      rw [wrapperLoop, h0]
      refine ih (t' + 1) (s + 1) (by omega) ?_ ?_
      · intro j hj
        have := hprev (j + 1) (by omega)
        have harith : s + (j + 1) = s + 1 + j := by omega
        rwa [harith] at this
      · have harith : s + (k + 1) = s + 1 + k := by omega
        rwa [harith] at herr

/-- C9: the retry wrapper's success test does `result.get("returncode", -1)`;
when a guarded (non-final) attempt returns a non-empty list — as
`get_activities`/`get_hrv` do on success — the call raises `AttributeError`,
so fetched data is never returned from an attempt other than the last. -/
theorem retry_wrapper_raises_on_list_success (tries : ℕ) (results : ℕ → PyVal) (k n : ℕ)
    (hk : k + 1 < tries)
    (hsucc : results k = .pylist (n + 1))
    (hprev : ∀ j, j < k → successCheck (results j) = .ok false) :
    retryWrapper tries results = .error .attributeError := by
  have hchk : successCheck (results k) = .error .attributeError := by
    rw [hsucc]
    simp [successCheck, PyVal.truthy]
  refine wrapperLoop_error_of results k tries 0 hk ?_ ?_
  · intro j hj
    simpa using hprev j hj
  · simpa using hchk

/-- Witness for C9: three tries, every call returning the one-element list. -/
theorem retry_wrapper_raises_on_list_success_witness :
    (0 + 1 < 3) ∧
    retryWrapper 3 (fun _ => PyVal.pylist 1) = .error .attributeError :=
  ⟨by norm_num,
   retry_wrapper_raises_on_list_success 3 (fun _ => PyVal.pylist 1) 0 0 (by norm_num) rfl
     (fun j hj => absurd hj (Nat.not_lt_zero j))⟩

/-- C2 counterexample: when the unguarded `os.makedirs` call raises, the
exception escapes `patch_and_push` to its caller — the function does not
return normally. -/
theorem patch_and_push_raises_on_makedirs_failure :
    patch_and_push envMkdirsFail fs0 = Except.error PyExn.uncaught ∧
    ∀ out, patch_and_push envMkdirsFail fs0 ≠ Except.ok out := by
  refine ⟨rfl, ?_⟩
  intro out h
  rw [show patch_and_push envMkdirsFail fs0 = Except.error PyExn.uncaught from rfl] at h
  exact Except.noConfusion h

/-- C2 amended: apart from the unguarded `os.makedirs` call creating the
`plans` directory (planner_interface.py line 32), whose failure propagates to
the caller, `patch_and_push` never raises: when the directory creation
succeeds it returns normally, and on every failure path (diff decode failure,
patch application failure, failure saving the patched plan, push subprocess
failure or launch failure) it ends with a non-`succeeded` status and leaves
`plans/current_plan.yaml` unchanged. -/
theorem patch_and_push_fail_open (env : Env) (fs : FS) (hmk : env.mkdirs = true) :
    ∃ out, patch_and_push env fs = Except.ok out ∧
      (out.status ≠ Status.succeeded → out.fs.current = fs.current) := by
  obtain ⟨mk, load, dec, ap, save, push, copy⟩ := env
  simp only at hmk
  subst hmk
  cases dec with
  | jsonError => exact ⟨_, rfl, fun _ => rfl⟩
  | otherError => exact ⟨_, rfl, fun _ => rfl⟩
  | ok p =>
    cases hap : ap (loadedPlan ⟨true, load, DecodeResult.ok p, ap, save, push, copy⟩) p with
    | patchError =>
      simp only [patch_and_push, hap]
      exact ⟨_, rfl, fun _ => rfl⟩
    | otherError =>
      simp only [patch_and_push, hap]
      exact ⟨_, rfl, fun _ => rfl⟩
    | ok patched =>
      cases save with
      | false =>
        simp only [patch_and_push, hap]
        exact ⟨_, rfl, fun _ => rfl⟩
      | true =>
        cases push with
        | cmdNotFound =>
          simp only [patch_and_push, hap]
          exact ⟨_, rfl, fun _ => rfl⟩
        | otherError =>
          simp only [patch_and_push, hap]
          exact ⟨_, rfl, fun _ => rfl⟩
        | ran rc =>
          rcases eq_or_ne rc 0 with rfl | hrc
          · cases copy with
            | false =>
              simp only [patch_and_push, hap]
              exact ⟨_, rfl, fun h => absurd rfl h⟩
            | true =>
              simp only [patch_and_push, hap]
              exact ⟨_, rfl, fun h => absurd rfl h⟩
          · simp only [patch_and_push, hap]
            rw [if_pos hrc]
            exact ⟨_, rfl, fun _ => rfl⟩

/-- Evaluation of the amended C2 on a run whose directory creation succeeds
and whose push subprocess exits non-zero: the returned status is
`failedSubprocess` and the current plan file is unchanged. -/
theorem patch_and_push_fail_open_witness :
    envPushFail.mkdirs = true ∧
    patch_and_push envPushFail fs0 =
      Except.ok ⟨⟨some 11, some 7⟩, Status.failedSubprocess, 1, some (PushResult.ran 2), false⟩ ∧
    (⟨⟨some 11, some 7⟩, Status.failedSubprocess, 1, some (PushResult.ran 2), false⟩ :
      Outcome).fs.current = fs0.current := by
  refine ⟨rfl, ?_⟩
  obtain ⟨out, hout, himp⟩ := patch_and_push_fail_open envPushFail fs0 rfl
  have heq : out = ⟨⟨some 11, some 7⟩, Status.failedSubprocess, 1, some (PushResult.ran 2),
      false⟩ := by
    have : patch_and_push envPushFail fs0 =
        Except.ok ⟨⟨some 11, some 7⟩, Status.failedSubprocess, 1, some (PushResult.ran 2),
          false⟩ := rfl
    rw [this] at hout
    exact (Except.ok.inj hout).symm
  subst heq
  exact ⟨hout, himp (by decide)⟩

/-- C4 counterexample: the push subprocess exits with code 0 yet the current
plan is not persisted — the `shutil.copyfile` cache update fails (its handler
logs and continues, the run still ends `succeeded`), so `fs.current` keeps
the old plan `11` instead of the patched plan `7`.  This refutes "the merged
plan is persisted exactly when the push returns exit code 0". -/
theorem patch_and_push_copy_failure_counterexample :
    patch_and_push envCopyFail fs0 =
      Except.ok ⟨⟨some 11, some 7⟩, Status.succeeded, 1, some (PushResult.ran 0), true⟩ ∧
    fs0.current = some 11 ∧ (some 11 : Option Plan) ≠ some 7 :=
  ⟨rfl, rfl, by decide⟩

/-- C4 amended: the copy of `plans/patched_plan.yaml` over
`plans/current_plan.yaml` is attempted exactly when the push subprocess was
reached and exited with code 0 (when the push exits non-zero or cannot be
launched, the current plan file is not updated); and whenever the current
plan file does change, the push exited 0 and the new current plan is the
patched plan.  The copy attempt itself may fail, in which case the current
plan stays unchanged even though the push exited 0. -/
theorem patch_and_push_cache_update (env : Env) (fs : FS) (out : Outcome)
    (h : patch_and_push env fs = Except.ok out) :
    (out.copyAttempted = true ↔ out.pushRes = some (PushResult.ran 0)) ∧
    (out.fs.current ≠ fs.current →
      out.pushRes = some (PushResult.ran 0) ∧ out.fs.current = out.fs.patched) := by
  revert h
  obtain ⟨mk, load, dec, ap, save, push, copy⟩ := env
  cases mk with
  | false =>
    intro h
    exact absurd h (by simp [patch_and_push])
  | true =>
    cases dec with
    | jsonError =>
      intro h
      cases Except.ok.inj h
      simp
    | otherError =>
      intro h
      cases Except.ok.inj h
      simp
    | ok p =>
      cases hap : ap (loadedPlan ⟨true, load, DecodeResult.ok p, ap, save, push, copy⟩) p with
      | patchError =>
        simp only [patch_and_push, hap]
        intro h
        cases Except.ok.inj h
        simp
      | otherError =>
        simp only [patch_and_push, hap]
        intro h
        cases Except.ok.inj h
        simp
      | ok patched =>
        cases save with
        | false =>
          simp only [patch_and_push, hap]
          intro h
          cases Except.ok.inj h
          simp
        | true =>
          cases push with
          | cmdNotFound =>
            simp only [patch_and_push, hap]
            intro h
            cases Except.ok.inj h
            simp
          | otherError =>
            simp only [patch_and_push, hap]
            intro h
            cases Except.ok.inj h
            simp
          | ran rc =>
            rcases eq_or_ne rc 0 with rfl | hrc
            · cases copy with
              | false =>
                simp only [patch_and_push, hap]
                intro h
                cases Except.ok.inj h
                simp
              | true =>
                simp only [patch_and_push, hap]
                intro h
                cases Except.ok.inj h
                simp
            · simp only [patch_and_push, hap]
              rw [if_pos hrc]
              intro h
              cases Except.ok.inj h
              simp [hrc]

/-- Witness for C4 on the happy path: push exits 0 and the patched plan
becomes the current plan. -/
theorem patch_and_push_cache_update_witness :
    patch_and_push envHappy fs0 =
      Except.ok ⟨⟨some 7, some 7⟩, Status.succeeded, 1, some (PushResult.ran 0), true⟩ ∧
    ((⟨⟨some 7, some 7⟩, Status.succeeded, 1, some (PushResult.ran 0), true⟩ :
        Outcome).copyAttempted = true ↔
      (⟨⟨some 7, some 7⟩, Status.succeeded, 1, some (PushResult.ran 0), true⟩ :
        Outcome).pushRes = some (PushResult.ran 0)) :=
  ⟨rfl,
   (patch_and_push_cache_update envHappy fs0
     ⟨⟨some 7, some 7⟩, Status.succeeded, 1, some (PushResult.ran 0), true⟩ rfl).1⟩

/-- C8 counterexample: when `jsonpatch.apply_patch` fails, the apply is
attempted exactly once — there is no retry (a retry-once flow would make two
attempts). -/
theorem patch_apply_retry_once_counterexample :
    patch_and_push envApplyFail fs0 =
      Except.ok ⟨fs0, Status.failedPatchApplication, 1, none, false⟩ ∧
    (1 : ℕ) ≠ 2 :=
  ⟨rfl, by decide⟩

/-- C8 amended: when applying the JSON Patch fails, `patch_and_push` abandons
the operation immediately after logging — the apply is attempted exactly
once, the run ends with a failure status, and the current plan is unchanged. -/
theorem patch_apply_no_retry (env : Env) (fs : FS) (p : Patch)
    (hmk : env.mkdirs = true)
    (hdec : env.decode = DecodeResult.ok p)
    (hfail : env.applyPatch (loadedPlan env) p = ApplyResult.patchError ∨
             env.applyPatch (loadedPlan env) p = ApplyResult.otherError) :
    ∃ out, patch_and_push env fs = Except.ok out ∧ out.applyAttempts = 1 ∧
      out.status ≠ Status.succeeded ∧ out.fs.current = fs.current := by
  obtain ⟨mk, load, dec, ap, save, push, copy⟩ := env
  simp only at hmk hdec hfail
  subst hmk
  subst hdec
  rcases hfail with hf | hf
  · refine ⟨⟨fs, Status.failedPatchApplication, 1, none, false⟩, ?_, rfl, by simp, rfl⟩
    simp only [patch_and_push, hf]
    rfl
  · refine ⟨⟨fs, Status.failedPatchException, 1, none, false⟩, ?_, rfl, by simp, rfl⟩
    simp only [patch_and_push, hf]
    rfl

/-- Witness for the amended C8 at a concrete failing apply. -/
theorem patch_apply_no_retry_witness :
    envApplyFail.mkdirs = true ∧
    envApplyFail.decode = DecodeResult.ok 3 ∧
    envApplyFail.applyPatch (loadedPlan envApplyFail) 3 = ApplyResult.patchError ∧
    ∃ out, patch_and_push envApplyFail fs0 = Except.ok out ∧ out.applyAttempts = 1 ∧
      out.status ≠ Status.succeeded ∧ out.fs.current = fs0.current :=
  ⟨rfl, rfl, rfl, patch_apply_no_retry envApplyFail fs0 3 rfl rfl (Or.inl rfl)⟩

end GarminCoach
